import Mathlib

/-!
Verification development for the recad schematic-capture engine.

The repository ships only usage samples and tests of the `recad` core; the
core itself (geometry, placement engine, net model, codec, renderer) is not
among the available sources.  Every definition below is therefore modelled
from the specification document, staying as close as possible to its words,
and the claims are settled against this model.
-/

/-- Modelled from the spec: a point `(x, y)` in millimeters.  The missing
source is the Geometry component of the recad core. -/
structure Point where
  x : ℚ
  y : ℚ
deriving DecidableEq, Repr

instance : Add Point := ⟨fun p q => ⟨p.x + q.x, p.y + q.y⟩⟩

instance : Sub Point := ⟨fun p q => ⟨p.x - q.x, p.y - q.y⟩⟩

/-- Scalar multiple of a point. -/
def Point.scale (k : ℚ) (p : Point) : Point := ⟨k * p.x, k * p.y⟩

/-- Modelled from the spec: the fixed coordinate epsilon (e.g. `1e-4` mm)
used by the Net & Junction Model to merge coincident connection points. -/
def eps : ℚ := 1 / 10000

/-- Two points coincide within the coordinate epsilon (per coordinate). -/
def closeB (p q : Point) : Bool :=
  decide (|p.x - q.x| ≤ eps ∧ |p.y - q.y| ≤ eps)

/-- Modelled from the spec: a mirror axis flag, `"x"` or `"y"`. -/
inductive Axis
  | x
  | y
deriving DecidableEq, Repr

/-- Modelled from the spec: rotation angle (degrees) plus mirror axis flag,
applied about an element's local origin. -/
structure Transform where
  rotation : Nat
  mirror : Option Axis
deriving DecidableEq, Repr

/-- Angle normalization to `[0, 360)`. -/
def normalizeAngle (r : Nat) : Nat := r % 360

/-- Mirror about axis "x" or "y" negates the corresponding local coordinate. -/
def mirrorPt : Option Axis → Point → Point
  | none, p => p
  | some .x, p => ⟨-p.x, p.y⟩
  | some .y, p => ⟨p.x, -p.y⟩

/-- Rotation of a local point by the quarter-turn angles the schematic format
uses (`0/90/180/270` degrees, counter-clockwise); other angles, which no
directive of the modelled API produces, act as the identity. -/
def rotPt (r : Nat) (p : Point) : Point :=
  if r % 360 = 90 then ⟨-p.y, p.x⟩
  else if r % 360 = 180 then ⟨-p.x, -p.y⟩
  else if r % 360 = 270 then ⟨p.y, -p.x⟩
  else p

/-- Modelled from the spec: applying a transform to a local point mirrors
first, then rotates. -/
def Transform.apply (t : Transform) (p : Point) : Point :=
  rotPt t.rotation (mirrorPt t.mirror p)

/-- Travel direction of the cursor. -/
inductive Dir
  | right
  | left
  | up
  | down
deriving DecidableEq, Repr

/-- Unit vector of a travel direction. -/
def dirVec : Dir → Point
  | .right => ⟨1, 0⟩
  | .left => ⟨-1, 0⟩
  | .up => ⟨0, 1⟩
  | .down => ⟨0, -1⟩

/-- Modelled from the spec: the cursor, current position plus travel
direction, mutated by each committed directive. -/
structure Cursor where
  pos : Point
  dir : Dir
deriving DecidableEq, Repr

/-- Modelled from the spec: the closed variant set of resolved elements.
A symbol stores its reference, value, library id, absolute origin, placement
transform and resolved absolute pin positions. -/
inductive Element
  | wire (a b : Point)
  | junction (p : Point)
  | symbol (ref value libid : String) (origin : Point) (tr : Transform)
      (pins : List (String × Point))
  | localLabel (text : String) (p : Point) (rot : Nat)
deriving DecidableEq, Repr

/-- Modelled from the spec: a symbol definition held by the Symbol Library
Resolver — pin offsets keyed by pin id, electrical type, default graphic. -/
structure SymbolDef where
  pins : List (String × Point)
  etype : String
  graphic : List (Point × Point)
deriving DecidableEq, Repr

/-- Modelled from the spec: the process-wide symbol library, keyed by a
`"Library:Name"` identifier. -/
abbrev Library := List (String × SymbolDef)

/-- Modelled from the spec: the Document Model — ordered element sequence
(order is the file-write order), a cursor, and verbatim pass-through data
the model does not explicitly represent. -/
structure Schema where
  title : String
  elements : List Element
  cursor : Cursor
  extras : List String
deriving DecidableEq, Repr

/-- An empty document with the cursor at the origin. -/
def emptySchema (t : String) : Schema :=
  ⟨t, [], ⟨⟨0, 0⟩, .right⟩, []⟩

/-- The ref and resolved pins of a symbol element. -/
def Element.refPins : Element → Option (String × List (String × Point))
  | .symbol r _ _ _ _ pins => some (r, pins)
  | _ => none

/-- Modelled from the spec: the index from `ref` to placed `Symbol` used by
`at`/`tox`/`toy` lookups. -/
def Schema.refIndex (s : Schema) : List (String × List (String × Point)) :=
  s.elements.filterMap Element.refPins

/-- Modelled from the spec: the error taxonomy of the engine. -/
inductive Err
  | referenceError
  | duplicateRefError
  | valueError
  | lookupError
  | formatError
  | ioError
  | notFoundError
deriving DecidableEq, Repr

/-- Resolved absolute position of pin `i` of the already-placed symbol `r`;
fails with `ReferenceError` when the ref or the pin is unknown. -/
def pinPosition (s : Schema) (r i : String) : Except Err Point :=
  match List.lookup r s.refIndex with
  | none => .error .referenceError
  | some pins =>
    match List.lookup i pins with
    | none => .error .referenceError
    | some q => .ok q

/-- Modelled from the spec: how a staged directive chooses its target point —
from the cursor, absolutely at a pin, or constraining one coordinate. -/
inductive Placement
  | fromCursor
  | atPin (r i : String)
  | tox (r i : String)
  | toy (r i : String)
deriving DecidableEq, Repr

/-- Target point of a placement against the current cursor and ref index:
`atPin` ignores the cursor entirely, `tox` takes only x from the pin and y
from the cursor, `toy` symmetrically. -/
def resolveTarget (s : Schema) : Placement → Except Err Point
  | .fromCursor => .ok s.cursor.pos
  | .atPin r i => pinPosition s r i
  | .tox r i => (pinPosition s r i).map fun q => ⟨q.x, s.cursor.pos.y⟩
  | .toy r i => (pinPosition s r i).map fun q => ⟨s.cursor.pos.x, q.y⟩

/-- Modelled from the spec: an immutable staged wire directive. -/
structure WireD where
  dir : Option Dir
  len : Option ℚ
  place : Placement
deriving DecidableEq, Repr

/-- Modelled from the spec: an immutable staged symbol directive. -/
structure SymbolD where
  ref : String
  value : String
  libid : String
  rot : Nat
  mirrorA : Option String
  anchorPin : Option String
  place : Placement
deriving DecidableEq, Repr

/-- Modelled from the spec: an immutable staged local-label directive. -/
structure LabelD where
  text : String
  rot : Nat
  place : Placement
deriving DecidableEq, Repr

/-- Modelled from the spec: an immutable staged junction directive. -/
structure JunD where
  place : Placement
deriving DecidableEq, Repr

/-- A staged directive of any kind. -/
inductive Directive
  | wireDir (w : WireD)
  | junctionDir (j : JunD)
  | symbolDir (sd : SymbolD)
  | labelDir (ld : LabelD)
deriving DecidableEq, Repr

/-- Modelled from the spec: the fixed grid constant used as default segment
length (2.54 mm). -/
def gridUnit : ℚ := 254 / 100

/-- Validation of the raw mirror argument: only `"x"` and `"y"` are legal;
anything else fails with `ValueError`. -/
def checkMirror : Option String → Except Err (Option Axis)
  | none => .ok none
  | some a =>
    if a = "x" then .ok (some .x)
    else if a = "y" then .ok (some .y)
    else .error .valueError

/-- Resolved absolute pin positions of a placed symbol: each library pin
offset is transformed and translated by the symbol origin. -/
def mkResolvedPins (tr : Transform) (origin : Point)
    (defPins : List (String × Point)) : List (String × Point) :=
  defPins.map fun pr => (pr.1, tr.apply pr.2 + origin)

/-- Resolution of a staged wire directive against the cursor: the segment
starts at the cursor (at the pin for `atPin`), runs along the travel
direction for the default or overridden length, and `tox`/`toy` constrain
the endpoint coordinate; the cursor exits at the segment end. -/
def resolveWire (s : Schema) (w : WireD) : Except Err (Element × Cursor) :=
  let d := w.dir.getD s.cursor.dir
  let n := w.len.getD gridUnit
  match w.place with
  | .fromCursor =>
    let b := s.cursor.pos + Point.scale n (dirVec d)
    .ok (.wire s.cursor.pos b, ⟨b, d⟩)
  | .atPin r i =>
    (pinPosition s r i).map fun q =>
      (.wire q (q + Point.scale n (dirVec d)), ⟨q + Point.scale n (dirVec d), d⟩)
  | .tox r i =>
    (pinPosition s r i).map fun q =>
      (.wire s.cursor.pos ⟨q.x, s.cursor.pos.y⟩, ⟨⟨q.x, s.cursor.pos.y⟩, d⟩)
  | .toy r i =>
    (pinPosition s r i).map fun q =>
      (.wire s.cursor.pos ⟨s.cursor.pos.x, q.y⟩, ⟨⟨s.cursor.pos.x, q.y⟩, d⟩)

/-- Resolution of a staged symbol directive: the placement target is
resolved first, then the ref-collision check, the mirror-axis validation,
the library lookup, and the anchor translation (the named pin, not the
origin, lands on the target); the cursor exits at the reference pin (the
origin when no anchor is given, which then equals the target). -/
def resolveSymbol (lib : Library) (s : Schema) (sd : SymbolD) :
    Except Err (Element × Cursor) :=
  match resolveTarget s sd.place with
  | .error e => .error e
  | .ok target =>
    if (List.lookup sd.ref s.refIndex).isSome then .error .duplicateRefError
    else
      match checkMirror sd.mirrorA with
      | .error e => .error e
      | .ok mir =>
        match List.lookup sd.libid lib with
        | none => .error .lookupError
        | some defn =>
          let tr : Transform := ⟨normalizeAngle sd.rot, mir⟩
          match sd.anchorPin with
          | none =>
            .ok (.symbol sd.ref sd.value sd.libid target tr
                  (mkResolvedPins tr target defn.pins), ⟨target, s.cursor.dir⟩)
          | some a =>
            match List.lookup a defn.pins with
            | none => .error .lookupError
            | some off =>
              let origin := target - tr.apply off
              .ok (.symbol sd.ref sd.value sd.libid origin tr
                    (mkResolvedPins tr origin defn.pins), ⟨target, s.cursor.dir⟩)

/-- Resolution of a staged junction directive: placed at its target; the
cursor is unchanged. -/
def resolveJunction (s : Schema) (j : JunD) : Except Err (Element × Cursor) :=
  (resolveTarget s j.place).map fun q => (.junction q, s.cursor)

/-- Resolution of a staged label directive: placed at its target with its
rotation; the cursor is unchanged. -/
def resolveLabel (s : Schema) (ld : LabelD) : Except Err (Element × Cursor) :=
  (resolveTarget s ld.place).map fun q =>
    (.localLabel ld.text q (normalizeAngle ld.rot), s.cursor)

/-- Resolution of any staged directive into one absolute element plus the
cursor state after the commit. -/
def resolveDirective (lib : Library) (s : Schema) :
    Directive → Except Err (Element × Cursor)
  | .wireDir w => resolveWire s w
  | .junctionDir j => resolveJunction s j
  | .symbolDir sd => resolveSymbol lib s sd
  | .labelDir ld => resolveLabel s ld

/-- Modelled from the spec: the composition step.  Appending a staged
directive resolves it against cursor and library, appends the one resolved
element and advances the cursor; on error the Schema is returned in its
state before the append, together with the error. -/
def appendStep (lib : Library) (s : Schema) (d : Directive) :
    Schema × Option Err :=
  match resolveDirective lib s d with
  | .ok (el, cur) => ({ s with elements := s.elements ++ [el], cursor := cur }, none)
  | .error e => (s, some e)

/-- Replaying a directive sequence: appends run in order and the run stops
at the first error, retaining the last valid committed state. -/
def runDirectives (lib : Library) (s : Schema) :
    List Directive → Schema × Option Err
  | [] => (s, none)
  | d :: ds =>
    match appendStep lib s d with
    | (s2, none) => runDirectives lib s2 ds
    | (s2, some e) => (s2, some e)

/-- Modelled from the spec: `move_to` resets the cursor position directly,
independent of any directive. -/
def moveTo (s : Schema) (p : Point) : Schema :=
  { s with cursor := ⟨p, s.cursor.dir⟩ }

/-- A schema built purely through the composition operator from an empty
document. -/
def Composed (lib : Library) (t : String) (ds : List Directive) (s : Schema) : Prop :=
  runDirectives lib (emptySchema t) ds = (s, none)

/-- Connection points an element contributes to the Net Model: wire
endpoints, resolved pin positions, junction points, label points. -/
def elementPoints : Element → List Point
  | .wire a b => [a, b]
  | .junction p => [p]
  | .symbol _ _ _ _ _ pins => pins.map fun pr => pr.2
  | .localLabel _ p _ => [p]

/-- All connection points of an element sequence. -/
def connPoints (els : List Element) : List Point :=
  els.foldr (fun el acc => elementPoints el ++ acc) []

/-- Whether point `p` lies on the closed segment from `a` to `b`
(exact collinearity plus the bounding box). -/
def onSegB (p a b : Point) : Bool :=
  decide ((b.x - a.x) * (p.y - a.y) - (b.y - a.y) * (p.x - a.x) = 0 ∧
    min a.x b.x ≤ p.x ∧ p.x ≤ max a.x b.x ∧
    min a.y b.y ≤ p.y ∧ p.y ≤ max a.y b.y)

/-- Whether `q` coincides with an endpoint of some wire whose segment passes
through the junction point `j`. -/
def wireEndNear (els : List Element) (j q : Point) : Bool :=
  els.any fun el =>
    match el with
    | .wire a b => onSegB j a b && (closeB q a || closeB q b)
    | _ => false

/-- Modelled from the spec: one merging step of the Net & Junction Model.
Two connection points are directly linked when they coincide within the
epsilon, when they are the two endpoints of one wire, or when one of them is
a junction point lying on a wire segment and the other an endpoint of that
wire — a junction being the sole mechanism that connects crossing wires. -/
def linkB (els : List Element) (p q : Point) : Bool :=
  closeB p q ||
  (els.any fun el =>
    match el with
    | .wire a b => (closeB p a && closeB q b) || (closeB p b && closeB q a)
    | _ => false) ||
  (els.any fun el =>
    match el with
    | .junction j =>
      (closeB p j && wireEndNear els j q) || (closeB q j && wireEndNear els j p)
    | _ => false)

/-- Two points belong to the same net node: the reflexive-transitive closure
of direct links through the connection points of the schema. -/
def nodeRel (els : List Element) (p q : Point) : Prop :=
  Relation.ReflTransGen (fun u v => v ∈ connPoints els ∧ linkB els u v = true) p q

/-- Pins of two placed symbols are electrically connected in the Net Model. -/
def pinsConnected (s : Schema) (r1 i1 r2 i2 : String) : Prop :=
  ∃ q1 q2, pinPosition s r1 i1 = .ok q1 ∧ pinPosition s r2 i2 = .ok q2 ∧
    nodeRel s.elements q1 q2

/-- Modelled from the spec: the canonical precision of the persisted format
(the reciprocal grid of the open-question precision choice, fixed here to
the epsilon grid). -/
def prec : ℚ := 10000

/-- Quantization of one coordinate to the format's canonical precision. -/
def quantizeQ (c : ℚ) : ℚ := (round (c * prec) : ℚ) / prec

/-- Quantization of a point. -/
def quantizeP (p : Point) : Point := ⟨quantizeQ p.x, quantizeQ p.y⟩

/-- Quantization of a resolved pin list. -/
def quantizePins (ps : List (String × Point)) : List (String × Point) :=
  ps.map fun pr => (pr.1, quantizeP pr.2)

/-- Quantization of a whole element, coordinate by coordinate. -/
def quantizeElem : Element → Element
  | .wire a b => .wire (quantizeP a) (quantizeP b)
  | .junction p => .junction (quantizeP p)
  | .symbol r v l o tr pins => .symbol r v l (quantizeP o) tr (quantizePins pins)
  | .localLabel t p rot => .localLabel t (quantizeP p) rot

/-- Modelled from the spec: one node of the persisted nested-expression
schematic file — the mandatory top-level metadata, one node per element, and
verbatim unknown/extension nodes. -/
inductive FileNode
  | header (version : Nat) (uuid : String) (sheet : String)
  | wireN (a b : Point)
  | junctionN (p : Point)
  | symbolN (ref value libid : String) (origin : Point) (rot : Nat)
      (mir : Option Axis) (pins : List (String × Point))
  | labelN (text : String) (p : Point) (rot : Nat)
  | unknown (raw : String)
deriving DecidableEq, Repr

/-- The format version the codec writes and accepts. -/
def formatVersion : Nat := 20231120

/-- The synthesized unique document id. -/
def docId : String := "e63e39d7-6ac0-4ffd-8aa3-1841a4541b55"

/-- Serialization of one element, coordinates quantized to the canonical
precision. -/
def elemToNode : Element → FileNode
  | .wire a b => .wireN (quantizeP a) (quantizeP b)
  | .junction p => .junctionN (quantizeP p)
  | .symbol r v l o tr pins =>
    .symbolN r v l (quantizeP o) tr.rotation tr.mirror (quantizePins pins)
  | .localLabel t p rot => .labelN t (quantizeP p) rot

/-- Modelled from the spec: the Writer — elements in their append order,
wrapped in the format's node types, after the synthesized top-level
metadata; pass-through data is re-emitted verbatim. -/
def write (s : Schema) : List FileNode :=
  .header formatVersion docId s.title ::
    (s.elements.map elemToNode ++ s.extras.map FileNode.unknown)

/-- Parsing of the body nodes of a file: element nodes become elements,
unknown nodes are preserved verbatim, and a stray header is structurally
malformed. -/
def parseBody : List FileNode → Except Err (List Element × List String)
  | [] => .ok ([], [])
  | n :: ns =>
    match parseBody ns with
    | .error e => .error e
    | .ok (els, ex) =>
      match n with
      | .header _ _ _ => .error .formatError
      | .wireN a b => .ok (.wire a b :: els, ex)
      | .junctionN p => .ok (.junction p :: els, ex)
      | .symbolN r v l o rot mir pins => .ok (.symbol r v l o ⟨rot, mir⟩ pins :: els, ex)
      | .labelN t p rot => .ok (.localLabel t p rot :: els, ex)
      | .unknown raw => .ok (els, raw :: ex)

/-- Modelled from the spec: the Parser — a well-formed file starts with the
top-level metadata of a supported version and yields a full Document Model;
malformed input fails with `FormatError` and never returns a partial model. -/
def load : List FileNode → Except Err Schema
  | .header v _ sheet :: rest =>
    if v = formatVersion then
      match parseBody rest with
      | .error e => .error e
      | .ok (els, ex) => .ok ⟨sheet, els, ⟨⟨0, 0⟩, .right⟩, ex⟩
    else .error .formatError
  | _ => .error .formatError

/-- A vector drawing command of the renderer output. -/
inductive VecCmd
  | lineV (a b : Point)
  | circleV (c : Point) (r : ℚ)
  | textV (t : String) (p : Point) (rot : Nat)
deriving DecidableEq, Repr

/-- The radius of the filled dot drawn for a junction. -/
def junctionDotRadius : ℚ := 9 / 25

/-- Modelled from the spec: rendering of one element — wires as straight
segments, junctions as filled dots, labels as oriented text, symbol graphics
from the library definition transformed by the placement transform; the
scale multiplies all output coordinates. -/
def renderElement (lib : Library) (scale : ℚ) : Element → List VecCmd
  | .wire a b => [.lineV (Point.scale scale a) (Point.scale scale b)]
  | .junction p => [.circleV (Point.scale scale p) (scale * junctionDotRadius)]
  | .localLabel t p rot => [.textV t (Point.scale scale p) rot]
  | .symbol _ _ l o tr _ =>
    match List.lookup l lib with
    | none => []
    | some defn =>
      defn.graphic.map fun g =>
        .lineV (Point.scale scale (tr.apply g.1 + o)) (Point.scale scale (tr.apply g.2 + o))

/-- Rendering of a resolved Document Model into vector output. -/
def render (lib : Library) (s : Schema) (scale : ℚ) : List VecCmd :=
  s.elements.foldr (fun el acc => renderElement lib scale el ++ acc) []

/-- Modelled from the spec: `plot` — without a destination path it returns
the in-memory vector buffer; with a path it writes the file (modelled as the
list of written files) and returns nothing.  The schema is threaded through
unchanged. -/
def plot (lib : Library) (s : Schema) (scale : ℚ) (path : Option String) :
    (Option (List VecCmd) × List (String × List VecCmd)) × Schema :=
  match path with
  | none => ((some (render lib s scale), []), s)
  | some p => ((none, [(p, render lib s scale)]), s)

/-- A fresh wire directive, as `Wire()` stages it. -/
def newWire : WireD := ⟨none, none, .fromCursor⟩

/-- Chained `right()` configuration. -/
def WireD.right (w : WireD) : WireD := { w with dir := some .right }

/-- Chained `left()` configuration. -/
def WireD.left (w : WireD) : WireD := { w with dir := some .left }

/-- Chained `up()` configuration. -/
def WireD.up (w : WireD) : WireD := { w with dir := some .up }

/-- Chained `down()` configuration. -/
def WireD.down (w : WireD) : WireD := { w with dir := some .down }

/-- Chained `length(n)` configuration, overriding the segment length for
this directive only. -/
def WireD.length (w : WireD) (n : ℚ) : WireD := { w with len := some n }

/-- Chained `tox(ref, pin)` configuration on a wire. -/
def WireD.tox (w : WireD) (r i : String) : WireD := { w with place := .tox r i }

/-- Chained `toy(ref, pin)` configuration on a wire. -/
def WireD.toy (w : WireD) (r i : String) : WireD := { w with place := .toy r i }

/-- A fresh symbol directive, as `Symbol(ref, value, libid)` stages it. -/
def newSymbol (r v l : String) : SymbolD := ⟨r, v, l, 0, none, none, .fromCursor⟩

/-- Chained `rotate(deg)` configuration on a symbol. -/
def SymbolD.rotate (sd : SymbolD) (a : Nat) : SymbolD := { sd with rot := a }

/-- Chained `mirror(axis)` configuration on a symbol (validated at commit). -/
def SymbolD.mirror (sd : SymbolD) (a : String) : SymbolD := { sd with mirrorA := some a }

/-- Chained `anchor(pin)` configuration on a symbol. -/
def SymbolD.anchor (sd : SymbolD) (i : String) : SymbolD := { sd with anchorPin := some i }

/-- Chained `tox(ref, pin)` configuration on a symbol. -/
def SymbolD.tox (sd : SymbolD) (r i : String) : SymbolD := { sd with place := .tox r i }

/-- Chained `toy(ref, pin)` configuration on a symbol. -/
def SymbolD.toy (sd : SymbolD) (r i : String) : SymbolD := { sd with place := .toy r i }

/-- Chained `at(ref, pin)` configuration on a symbol. -/
def SymbolD.atRef (sd : SymbolD) (r i : String) : SymbolD := { sd with place := .atPin r i }

/-- A fresh label directive, as `LocalLabel(text)` stages it. -/
def newLabel (t : String) : LabelD := ⟨t, 0, .fromCursor⟩

/-- Chained `rotate(deg)` configuration on a label. -/
def LabelD.rotate (ld : LabelD) (a : Nat) : LabelD := { ld with rot := a }

/-- Chained `at(ref, pin)` configuration on a label. -/
def LabelD.atRef (ld : LabelD) (r i : String) : LabelD := { ld with place := .atPin r i }

/-- A fresh junction directive, as `Junction()` stages it. -/
def newJunction : JunD := ⟨.fromCursor⟩

/-- The placement configuration carried by a staged directive. -/
def Directive.placement : Directive → Placement
  | .wireDir w => w.place
  | .junctionDir j => j.place
  | .symbolDir sd => sd.place
  | .labelDir ld => ld.place

/-- The point at which a resolved element was placed: a wire's start, a
junction's or label's point, a symbol's origin. -/
def Element.placedOrigin : Element → Point
  | .wire a _ => a
  | .junction p => p
  | .symbol _ _ _ o _ _ => o
  | .localLabel _ p _ => p

/-- A directive whose placement target coincides with the element's placed
origin (every kind except a symbol with an `anchor` pin). -/
def Directive.anchorFree : Directive → Prop
  | .symbolDir sd => sd.anchorPin = none
  | _ => True

/-- Whether an element is a junction. -/
def isJunction : Element → Bool
  | .junction _ => true
  | _ => false

/-- The refs of the symbol elements, in append order. -/
def symbolRefs (els : List Element) : List String :=
  els.filterMap fun el =>
    match el with
    | .symbol r _ _ _ _ _ => some r
    | _ => none

/-- Pin lists agree id by id with positions within the coordinate epsilon. -/
def pinsCloseB : List (String × Point) → List (String × Point) → Bool
  | [], [] => true
  | (i, p) :: t, (i2, p2) :: t2 => decide (i = i2) && closeB p p2 && pinsCloseB t t2
  | _, _ => false

/-- Two elements agree in kind and in all non-coordinate data, with every
coordinate within the coordinate epsilon. -/
def elemCloseB : Element → Element → Bool
  | .wire a b, .wire a2 b2 => closeB a a2 && closeB b b2
  | .junction p, .junction p2 => closeB p p2
  | .symbol r v l o tr pins, .symbol r2 v2 l2 o2 tr2 pins2 =>
    decide (r = r2) && decide (v = v2) && decide (l = l2) && closeB o o2 &&
      decide (tr = tr2) && pinsCloseB pins pins2
  | .localLabel t p rot, .localLabel t2 p2 rot2 =>
    decide (t = t2) && closeB p p2 && decide (rot = rot2)
  | _, _ => false

/-- A coordinate that lies exactly on the format's canonical precision grid. -/
def gridB (c : ℚ) : Bool := decide (quantizeQ c = c)

/-- A point on the canonical precision grid. -/
def pointGridB (p : Point) : Bool := gridB p.x && gridB p.y

/-- An element all of whose coordinates lie on the canonical precision grid. -/
def elemGridB : Element → Bool
  | .wire a b => pointGridB a && pointGridB b
  | .junction p => pointGridB p
  | .symbol _ _ _ o _ pins => pointGridB o && pins.all fun pr => pointGridB pr.2
  | .localLabel _ p _ => pointGridB p

/-- A schema all of whose stored coordinates lie on the canonical grid. -/
def onGridB (s : Schema) : Bool := s.elements.all elemGridB

/-- Library of the round-trip counterexample: two one-pin symbols whose pin
offsets sit off the canonical grid. -/
def rtLib : Library :=
  [("T:A", ⟨[("1", ⟨6/100000, 0⟩)], "passive", []⟩),
   ("T:B", ⟨[("1", ⟨21/100000, 0⟩)], "passive", []⟩)]

/-- Directive sequence of the round-trip counterexample. -/
def rtDs : List Directive :=
  [.symbolDir (newSymbol "U1" "v" "T:A"), .symbolDir (newSymbol "U2" "v" "T:B")]

/-- The schema the round-trip counterexample composes: pins at x = 0.00006
and x = 0.00021, which are 0.00015 apart — farther than the epsilon. -/
def rtM : Schema :=
  ⟨"t",
   [.symbol "U1" "v" "T:A" ⟨0, 0⟩ ⟨0, none⟩ [("1", ⟨3/50000, 0⟩)],
    .symbol "U2" "v" "T:B" ⟨0, 0⟩ ⟨0, none⟩ [("1", ⟨21/100000, 0⟩)]],
   ⟨⟨0, 0⟩, .right⟩, []⟩

/-- The schema obtained by writing and re-loading `rtM`: quantization pulls
the pins onto the grid at x = 0.0001 and x = 0.0002, exactly epsilon apart. -/
def rtM2 : Schema :=
  ⟨"t",
   [.symbol "U1" "v" "T:A" ⟨0, 0⟩ ⟨0, none⟩ [("1", ⟨1/10000, 0⟩)],
    .symbol "U2" "v" "T:B" ⟨0, 0⟩ ⟨0, none⟩ [("1", ⟨1/5000, 0⟩)]],
   ⟨⟨0, 0⟩, .right⟩, []⟩

/-- Directive sequence of the junction counterexample: a rightward wire of
length 1 followed by an upward wire of length 1, which share the corner
point `(1, 0)`. -/
def cxDs : List Directive :=
  [.wireDir ((newWire.right).length 1), .wireDir ((newWire.up).length 1)]

/-- The schema the junction counterexample composes: two wires whose
segments cross at `(1, 0)` with no junction anywhere. -/
def cxM : Schema :=
  ⟨"w", [.wire ⟨0, 0⟩ ⟨1, 0⟩, .wire ⟨1, 0⟩ ⟨1, 1⟩], ⟨⟨1, 1⟩, .up⟩, []⟩

/-- Concrete schema for exercising `at(ref, pin)` placement: symbol `U1`
with pin "1" resolved at `(10, 5)`, cursor at `(3, 7)`. -/
def cS5 : Schema :=
  ⟨"", [.symbol "U1" "opamp" "T:A" ⟨10, 5⟩ ⟨0, none⟩ [("1", ⟨10, 5⟩)]],
   ⟨⟨3, 7⟩, .right⟩, []⟩

/-- Concrete directive for exercising `at(ref, pin)` placement: a label
placed at `U1` pin "1". -/
def cD5 : Directive := .labelDir ⟨"Vout", 0, .atPin "U1" "1"⟩

/-- Concrete schema for the junction-merge witness: a horizontal and a
vertical wire crossing at the origin, all endpoints at distance 1. -/
def cS2 : Schema :=
  ⟨"w", [.wire ⟨-1, 0⟩ ⟨1, 0⟩, .wire ⟨0, -1⟩ ⟨0, 1⟩], ⟨⟨0, 0⟩, .right⟩, []⟩

lemma closeB_refl (p : Point) : closeB p p = true := by
  simp [closeB, eps]

lemma closeB_symm (p q : Point) : closeB p q = closeB q p := by
  simp [closeB]
  rw [abs_sub_comm p.x q.x, abs_sub_comm p.y q.y]

/-- C10: `move_to` changes only the cursor position: elements, ref index,
net connectivity, pass-through data and the cursor travel direction are
untouched, while the cursor position becomes the given point. -/
theorem moveTo_cursor_only (s : Schema) (p : Point) :
    (moveTo s p).elements = s.elements ∧
    (moveTo s p).refIndex = s.refIndex ∧
    (∀ a b, nodeRel (moveTo s p).elements a b ↔ nodeRel s.elements a b) ∧
    (moveTo s p).cursor.dir = s.cursor.dir ∧
    (moveTo s p).cursor.pos = p ∧
    (moveTo s p).title = s.title ∧
    (moveTo s p).extras = s.extras :=
  ⟨rfl, rfl, fun _ _ => Iff.rfl, rfl, rfl, rfl, rfl⟩

/-- C9: `plot` does not mutate the Schema: the state it hands back is the
input state, with elements, ref index, cursor and net connectivity intact,
and calling it again on that state yields the identical output. -/
theorem plot_pure (lib : Library) (s : Schema) (k : ℚ) (path : Option String) :
    (plot lib s k path).2 = s ∧
    (plot lib s k path).2.elements = s.elements ∧
    (plot lib s k path).2.refIndex = s.refIndex ∧
    (plot lib s k path).2.cursor = s.cursor ∧
    (∀ a b, nodeRel (plot lib s k path).2.elements a b ↔ nodeRel s.elements a b) ∧
    (plot lib (plot lib s k path).2 k path).1 = (plot lib s k path).1 := by
  cases path <;> exact ⟨rfl, rfl, rfl, rfl, fun _ _ => Iff.rfl, rfl⟩

/-- C8: `plot` without a destination path returns the in-memory vector
buffer and writes no file; with a path it returns nothing and writes the
rendered buffer to that path. -/
theorem plot_output_mode (lib : Library) (s : Schema) (k : ℚ) :
    (plot lib s k none).1 = (some (render lib s k), []) ∧
    ∀ p, (plot lib s k (some p)).1 = (none, [(p, render lib s k)]) :=
  ⟨rfl, fun _ => rfl⟩

/-- C7: composition is deterministic — replaying an identical directive
sequence from equal initial Schemas yields identical Schemas and in
particular identical absolute coordinates for every element. -/
theorem placement_deterministic (lib : Library) (s1 s2 : Schema)
    (ds1 ds2 : List Directive) (hs : s1 = s2) (hd : ds1 = ds2) :
    runDirectives lib s1 ds1 = runDirectives lib s2 ds2 ∧
    (runDirectives lib s1 ds1).1.elements = (runDirectives lib s2 ds2).1.elements := by
  subst hs
  subst hd
  exact ⟨rfl, rfl⟩

/-- Witness for C7 at a concrete one-wire sequence. -/
theorem placement_deterministic_witness :
    runDirectives [] (emptySchema "") [.wireDir (newWire.right)] =
      runDirectives [] (emptySchema "") [.wireDir (newWire.right)] ∧
    (runDirectives [] (emptySchema "") [.wireDir (newWire.right)]).1.elements =
      (runDirectives [] (emptySchema "") [.wireDir (newWire.right)]).1.elements :=
  placement_deterministic [] (emptySchema "") (emptySchema "")
    [.wireDir (newWire.right)] [.wireDir (newWire.right)] rfl rfl

/-- C6: a placed symbol's resolved pin position is the library pin offset
taken through the symbol's transform and translated by the symbol origin,
the transform mirroring the local coordinate before applying the rotation. -/
theorem pin_transform_order (tr : Transform) (origin : Point)
    (defPins : List (String × Point)) (i : String) (off : Point)
    (h : List.lookup i defPins = some off) :
    List.lookup i (mkResolvedPins tr origin defPins) = some (tr.apply off + origin) ∧
    tr.apply off = rotPt tr.rotation (mirrorPt tr.mirror off) := by
  refine ⟨?_, rfl⟩
  induction defPins with
  | nil => simp [List.lookup] at h
  | cons a t ih =>
    rw [mkResolvedPins, List.map_cons, List.lookup]
    rw [List.lookup] at h
    cases hk : (i == a.1) with
    | true =>
      rw [hk] at h
      cases h
      rfl
    | false =>
      rw [hk] at h
      exact ih h

/-- Witness for C6: pin "2" with offset `(2, 1)` on a symbol rotated 90°
and mirrored on "x" at origin `(10, 5)` resolves to `(10 - 1, 5 - 2)`. -/
theorem pin_transform_order_witness :
    List.lookup "2" (mkResolvedPins ⟨90, some .x⟩ ⟨10, 5⟩ [("2", ⟨2, 1⟩)]) =
      some (Transform.apply ⟨90, some .x⟩ ⟨2, 1⟩ + (⟨10, 5⟩ : Point)) ∧
    Transform.apply ⟨90, some .x⟩ ⟨2, 1⟩ =
      rotPt 90 (mirrorPt (some .x) ⟨2, 1⟩) :=
  pin_transform_order ⟨90, some .x⟩ ⟨10, 5⟩ [("2", ⟨2, 1⟩)] "2" ⟨2, 1⟩ (by decide)

/-- C3: with the target pin resolved at `q`, a `tox` placement yields the
point `(q.x, cursor.y)` and a `toy` placement the point `(cursor.x, q.y)`;
committing a wire so configured appends exactly that segment from the
cursor and moves the cursor to its end. -/
theorem tox_toy_correct (lib : Library) (s : Schema) (r i : String) (q : Point)
    (h : pinPosition s r i = .ok q) :
    resolveTarget s (.tox r i) = .ok ⟨q.x, s.cursor.pos.y⟩ ∧
    resolveTarget s (.toy r i) = .ok ⟨s.cursor.pos.x, q.y⟩ ∧
    (∀ w : WireD, w.place = .tox r i →
      appendStep lib s (.wireDir w) =
        ({ s with
            elements := s.elements ++ [.wire s.cursor.pos ⟨q.x, s.cursor.pos.y⟩],
            cursor := ⟨⟨q.x, s.cursor.pos.y⟩, w.dir.getD s.cursor.dir⟩ }, none)) ∧
    (∀ w : WireD, w.place = .toy r i →
      appendStep lib s (.wireDir w) =
        ({ s with
            elements := s.elements ++ [.wire s.cursor.pos ⟨s.cursor.pos.x, q.y⟩],
            cursor := ⟨⟨s.cursor.pos.x, q.y⟩, w.dir.getD s.cursor.dir⟩ }, none)) := by
  refine ⟨?_, ?_, ?_, ?_⟩
  · simp [resolveTarget, h, Except.map]
  · simp [resolveTarget, h, Except.map]
  · intro w hw
    simp [appendStep, resolveDirective, resolveWire, hw, h, Except.map]
  · intro w hw
    simp [appendStep, resolveDirective, resolveWire, hw, h, Except.map]

/-- Witness for C3, matching the spec example: symbol `U1` has pin "2" at
`(10, 5)` and the cursor sits at `(3, 7)`. -/
theorem tox_toy_correct_witness :
    resolveTarget
        ⟨"", [.symbol "U1" "v" "T:A" ⟨10, 5⟩ ⟨0, none⟩ [("2", ⟨10, 5⟩)]],
         ⟨⟨3, 7⟩, .right⟩, []⟩ (.tox "U1" "2") = .ok ⟨10, 7⟩ ∧
    resolveTarget
        ⟨"", [.symbol "U1" "v" "T:A" ⟨10, 5⟩ ⟨0, none⟩ [("2", ⟨10, 5⟩)]],
         ⟨⟨3, 7⟩, .right⟩, []⟩ (.toy "U1" "2") = .ok ⟨3, 5⟩ := by
  have h := tox_toy_correct []
    ⟨"", [.symbol "U1" "v" "T:A" ⟨10, 5⟩ ⟨0, none⟩ [("2", ⟨10, 5⟩)]],
     ⟨⟨3, 7⟩, .right⟩, []⟩ "U1" "2" ⟨10, 5⟩ (by rfl)
  exact ⟨h.1, h.2.1⟩

lemma pinPosition_error {s : Schema} {r i : String} {e : Err}
    (h : pinPosition s r i = .error e) : e = .referenceError := by
  unfold pinPosition at h
  split at h
  · cases h
    rfl
  · split at h
    · cases h
      rfl
    · cases h

lemma resolveTarget_error {s : Schema} {pl : Placement} {e : Err}
    (h : resolveTarget s pl = .error e) : e = .referenceError := by
  cases pl with
  | fromCursor => cases h
  | atPin r i => exact pinPosition_error h
  | tox r i =>
    rw [resolveTarget] at h
    cases hp : pinPosition s r i with
    | ok q => rw [hp] at h; cases h
    | error e2 => rw [hp] at h; cases h; exact pinPosition_error hp
  | toy r i =>
    rw [resolveTarget] at h
    cases hp : pinPosition s r i with
    | ok q => rw [hp] at h; cases h
    | error e2 => rw [hp] at h; cases h; exact pinPosition_error hp

lemma checkMirror_error {m : Option String} {e : Err}
    (h : checkMirror m = .error e) : e = .valueError := by
  cases m with
  | none => cases h
  | some a =>
    rw [checkMirror] at h
    split at h
    · cases h
    · split at h
      · cases h
      · cases h
        rfl

lemma resolveDirective_error {lib : Library} {s : Schema} {d : Directive} {e : Err}
    (h : resolveDirective lib s d = .error e) :
    e = .referenceError ∨ e = .duplicateRefError ∨ e = .valueError ∨ e = .lookupError := by
  cases d with
  | wireDir w =>
    rw [resolveDirective, resolveWire] at h
    split at h
    · cases h
    all_goals {
      cases hp : pinPosition s _ _ with
      | ok q => rw [hp] at h; cases h
      | error e2 => rw [hp] at h; cases h; exact .inl (pinPosition_error hp)
    }
  | junctionDir j =>
    rw [resolveDirective, resolveJunction] at h
    cases hp : resolveTarget s j.place with
    | ok q => rw [hp] at h; cases h
    | error e2 => rw [hp] at h; cases h; exact .inl (resolveTarget_error hp)
  | labelDir ld =>
    rw [resolveDirective, resolveLabel] at h
    cases hp : resolveTarget s ld.place with
    | ok q => rw [hp] at h; cases h
    | error e2 => rw [hp] at h; cases h; exact .inl (resolveTarget_error hp)
  | symbolDir sd =>
    rw [resolveDirective, resolveSymbol] at h
    split at h
    · cases h
      exact .inl (resolveTarget_error (by assumption))
    · split at h
      · cases h
        exact .inr (.inl rfl)
      · split at h
        · cases h
          exact .inr (.inr (.inl (checkMirror_error (by assumption))))
        · split at h
          · cases h
            exact .inr (.inr (.inr rfl))
          · split at h
            · cases h
            · split at h
              · cases h
                exact .inr (.inr (.inr rfl))
              · cases h

/-- C4: a failing append is atomic — the returned Schema is exactly the
state before the append (elements, ref index, cursor, pass-through data and
net connectivity unchanged), and the error is one of `ReferenceError`,
`DuplicateRefError`, `ValueError`, `LookupError`. -/
theorem append_atomic (lib : Library) (s : Schema) (d : Directive)
    (s2 : Schema) (e : Err) (h : appendStep lib s d = (s2, some e)) :
    s2 = s ∧ s2.elements = s.elements ∧ s2.refIndex = s.refIndex ∧
    s2.cursor = s.cursor ∧ s2.extras = s.extras ∧
    (∀ p q, nodeRel s2.elements p q ↔ nodeRel s.elements p q) ∧
    (e = .referenceError ∨ e = .duplicateRefError ∨ e = .valueError ∨ e = .lookupError) := by
  unfold appendStep at h
  cases hr : resolveDirective lib s d with
  | ok pr =>
    rw [hr] at h
    cases h
  | error e2 =>
    rw [hr] at h
    cases h
    exact ⟨rfl, rfl, rfl, rfl, rfl, fun _ _ => Iff.rfl, resolveDirective_error hr⟩

/-- Witness for C4: appending a label placed `at("U9","1")` to the empty
Schema fails with `ReferenceError` and returns the empty Schema unchanged. -/
theorem append_atomic_witness :
    emptySchema "" = emptySchema "" ∧
    (emptySchema "").elements = (emptySchema "").elements ∧
    (emptySchema "").refIndex = (emptySchema "").refIndex ∧
    (emptySchema "").cursor = (emptySchema "").cursor ∧
    (emptySchema "").extras = (emptySchema "").extras ∧
    (∀ p q, nodeRel (emptySchema "").elements p q ↔ nodeRel (emptySchema "").elements p q) ∧
    (Err.referenceError = .referenceError ∨ Err.referenceError = .duplicateRefError ∨
      Err.referenceError = .valueError ∨ Err.referenceError = .lookupError) :=
  append_atomic [] (emptySchema "") (.labelDir ((newLabel "L").atRef "U9" "1"))
    (emptySchema "") .referenceError (by rfl)

lemma pinPosition_moveTo (s : Schema) (p0 : Point) (r i : String) :
    pinPosition (moveTo s p0) r i = pinPosition s r i := rfl

lemma refIndex_moveTo (s : Schema) (p0 : Point) :
    (moveTo s p0).refIndex = s.refIndex := rfl

lemma moveTo_dir (s : Schema) (p0 : Point) :
    (moveTo s p0).cursor.dir = s.cursor.dir := rfl

/-- C5: a directive placed `at(ref, pinId)` fails with `ReferenceError`
whenever no already-placed symbol carries `ref` or its resolved pins lack
`pinId`, leaving the Schema unchanged; when the pin resolves at `q`, the
commit ignores the cursor position entirely and the produced element is
placed at `q` (its origin for an anchor-free symbol, its point otherwise). -/
theorem at_pin_semantics (lib : Library) (s : Schema) (r i : String)
    (d : Directive) (hd : d.placement = .atPin r i) :
    ((List.lookup r s.refIndex = none ∨
      (∃ pins, List.lookup r s.refIndex = some pins ∧ List.lookup i pins = none)) →
      appendStep lib s d = (s, some .referenceError)) ∧
    (∀ p0, (resolveDirective lib (moveTo s p0) d).map Prod.fst =
      (resolveDirective lib s d).map Prod.fst) ∧
    (∀ q, pinPosition s r i = .ok q →
      ∀ el cur, resolveDirective lib s d = .ok (el, cur) →
        d.anchorFree → el.placedOrigin = q) := by
  refine ⟨?_, ?_, ?_⟩
  · intro hyp
    have hp : pinPosition s r i = .error .referenceError := by
      rcases hyp with hnone | ⟨pins, hsome, hpin⟩
      · unfold pinPosition
        rw [hnone]
      · unfold pinPosition
        rw [hsome]
        simp [hpin]
    cases d with
    | wireDir w =>
      simp [Directive.placement] at hd
      simp [appendStep, resolveDirective, resolveWire, hd, hp, Except.map]
    | junctionDir j =>
      simp [Directive.placement] at hd
      simp [appendStep, resolveDirective, resolveJunction, resolveTarget, hd, hp, Except.map]
    | labelDir ld =>
      simp [Directive.placement] at hd
      simp [appendStep, resolveDirective, resolveLabel, resolveTarget, hd, hp, Except.map]
    | symbolDir sd =>
      simp [Directive.placement] at hd
      simp [appendStep, resolveDirective, resolveSymbol, resolveTarget, hd, hp]
  · intro p0
    cases d with
    | wireDir w =>
      simp [Directive.placement] at hd
      cases hq : pinPosition s r i with
      | ok q =>
        simp [resolveDirective, resolveWire, hd, hq, pinPosition_moveTo, moveTo_dir, Except.map]
      | error e =>
        simp [resolveDirective, resolveWire, hd, hq, pinPosition_moveTo, moveTo_dir, Except.map]
    | junctionDir j =>
      simp [Directive.placement] at hd
      cases hq : pinPosition s r i with
      | ok q =>
        simp [resolveDirective, resolveJunction, resolveTarget, hd, hq, pinPosition_moveTo, Except.map]
      | error e =>
        simp [resolveDirective, resolveJunction, resolveTarget, hd, hq, pinPosition_moveTo, Except.map]
    | labelDir ld =>
      simp [Directive.placement] at hd
      cases hq : pinPosition s r i with
      | ok q =>
        simp [resolveDirective, resolveLabel, resolveTarget, hd, hq, pinPosition_moveTo, Except.map]
      | error e =>
        simp [resolveDirective, resolveLabel, resolveTarget, hd, hq, pinPosition_moveTo, Except.map]
    | symbolDir sd =>
      simp only [Directive.placement] at hd
      simp only [resolveDirective]
      unfold resolveSymbol
      rw [hd]
      rfl
  · intro q hq el cur hres hanch
    cases d with
    | wireDir w =>
      simp [Directive.placement] at hd
      simp [resolveDirective, resolveWire, hd, hq, Except.map] at hres
      rw [← hres.1]
      rfl
    | junctionDir j =>
      simp [Directive.placement] at hd
      simp [resolveDirective, resolveJunction, resolveTarget, hd, hq, Except.map] at hres
      rw [← hres.1]
      rfl
    | labelDir ld =>
      simp [Directive.placement] at hd
      simp [resolveDirective, resolveLabel, resolveTarget, hd, hq, Except.map] at hres
      rw [← hres.1]
      rfl
    | symbolDir sd =>
      simp [Directive.placement] at hd
      simp [Directive.anchorFree] at hanch
      simp [resolveDirective, resolveSymbol, resolveTarget, hd, hq, hanch] at hres
      split at hres
      · cases hres
      · split at hres
        · cases hres
        · split at hres
          · cases hres
          · cases hres
            rfl

/-- Witness for C5 at the concrete schema `cS5` and directive `cD5`. -/
theorem at_pin_semantics_witness :
    ((List.lookup "U1" cS5.refIndex = none ∨
      (∃ pins, List.lookup "U1" cS5.refIndex = some pins ∧ List.lookup "1" pins = none)) →
      appendStep [] cS5 cD5 = (cS5, some .referenceError)) ∧
    (∀ p0, (resolveDirective [] (moveTo cS5 p0) cD5).map Prod.fst =
      (resolveDirective [] cS5 cD5).map Prod.fst) ∧
    (∀ q, pinPosition cS5 "U1" "1" = .ok q →
      ∀ el cur, resolveDirective [] cS5 cD5 = .ok (el, cur) →
        cD5.anchorFree → el.placedOrigin = q) :=
  at_pin_semantics [] cS5 "U1" "1" cD5 rfl

lemma two_wire_noLink (a1 a2 b1 b2 u v : Point)
    (h11 : closeB a1 b1 = false) (h12 : closeB a1 b2 = false)
    (h21 : closeB a2 b1 = false) (h22 : closeB a2 b2 = false)
    (hu : u = a1 ∨ u = a2) (hv : v = b1 ∨ v = b2) :
    linkB [.wire a1 a2, .wire b1 b2] u v = false := by
  have h11r : closeB b1 a1 = false := by rw [closeB_symm]; exact h11
  have h12r : closeB b2 a1 = false := by rw [closeB_symm]; exact h12
  have h21r : closeB b1 a2 = false := by rw [closeB_symm]; exact h21
  have h22r : closeB b2 a2 = false := by rw [closeB_symm]; exact h22
  rcases hu with rfl | rfl <;> rcases hv with rfl | rfl <;>
    simp [linkB, wireEndNear, h11, h12, h21, h22, h11r, h12r, h21r, h22r]

/-- C2 (amended): in a Schema holding exactly two wires whose segments
cross at `p`, with every endpoint of one wire farther than the coordinate
epsilon from every endpoint of the other, the two wires lie in two distinct
net nodes; appending a `Junction` at `p` (an atomic commit that only adds
the junction element) merges them into one node. -/
theorem junction_semantics (lib : Library) (s : Schema) (a1 a2 b1 b2 p : Point)
    (hels : s.elements = [.wire a1 a2, .wire b1 b2])
    (hA : onSegB p a1 a2 = true) (hB : onSegB p b1 b2 = true)
    (h11 : closeB a1 b1 = false) (h12 : closeB a1 b2 = false)
    (h21 : closeB a2 b1 = false) (h22 : closeB a2 b2 = false) :
    (¬ nodeRel s.elements a1 b1) ∧ (¬ nodeRel s.elements a1 b2) ∧
    (appendStep lib (moveTo s p) (.junctionDir newJunction) =
      ({ s with
          elements := s.elements ++ [.junction p],
          cursor := ⟨p, s.cursor.dir⟩ }, none)) ∧
    nodeRel (s.elements ++ [.junction p]) a1 b1 ∧
    nodeRel (s.elements ++ [.junction p]) a1 b2 := by
  have reach : ∀ v, nodeRel [.wire a1 a2, .wire b1 b2] a1 v → v = a1 ∨ v = a2 := by
    intro v h
    induction h with
    | refl => exact .inl rfl
    | tail hprev hstep ih =>
      obtain ⟨hmem, hlink⟩ := hstep
      simp [connPoints, elementPoints] at hmem
      rcases hmem with rfl | rfl | rfl | rfl
      · exact .inl rfl
      · exact .inr rfl
      · rw [two_wire_noLink _ _ _ _ _ _ h11 h12 h21 h22 ih (.inl rfl)] at hlink
        cases hlink
      · rw [two_wire_noLink _ _ _ _ _ _ h11 h12 h21 h22 ih (.inr rfl)] at hlink
        cases hlink
  refine ⟨?_, ?_, ?_, ?_, ?_⟩
  · intro h
    rw [hels] at h
    rcases reach b1 h with hc | hc
    · rw [hc, closeB_refl] at h11
      cases h11
    · rw [hc, closeB_refl] at h21
      cases h21
  · intro h
    rw [hels] at h
    rcases reach b2 h with hc | hc
    · rw [hc, closeB_refl] at h12
      cases h12
    · rw [hc, closeB_refl] at h22
      cases h22
  · rfl
  · rw [hels]
    have hm1 : p ∈ connPoints [.wire a1 a2, .wire b1 b2, .junction p] := by
      simp [connPoints, elementPoints]
    have hm2 : b1 ∈ connPoints [.wire a1 a2, .wire b1 b2, .junction p] := by
      simp [connPoints, elementPoints]
    have hl1 : linkB [.wire a1 a2, .wire b1 b2, .junction p] a1 p = true := by
      simp [linkB, wireEndNear, hA, hB, closeB_refl]
    have hl2 : linkB [.wire a1 a2, .wire b1 b2, .junction p] p b1 = true := by
      simp [linkB, wireEndNear, hA, hB, closeB_refl]
    exact Relation.ReflTransGen.head ⟨hm1, hl1⟩
      (Relation.ReflTransGen.single ⟨hm2, hl2⟩)
  · rw [hels]
    have hm1 : p ∈ connPoints [.wire a1 a2, .wire b1 b2, .junction p] := by
      simp [connPoints, elementPoints]
    have hm2 : b2 ∈ connPoints [.wire a1 a2, .wire b1 b2, .junction p] := by
      simp [connPoints, elementPoints]
    have hl1 : linkB [.wire a1 a2, .wire b1 b2, .junction p] a1 p = true := by
      simp [linkB, wireEndNear, hA, hB, closeB_refl]
    have hl2 : linkB [.wire a1 a2, .wire b1 b2, .junction p] p b2 = true := by
      simp [linkB, wireEndNear, hA, hB, closeB_refl]
    exact Relation.ReflTransGen.head ⟨hm1, hl1⟩
      (Relation.ReflTransGen.single ⟨hm2, hl2⟩)

lemma Point.add_def (p q : Point) : p + q = ⟨p.x + q.x, p.y + q.y⟩ := rfl

lemma Point.sub_def (p q : Point) : p - q = ⟨p.x - q.x, p.y - q.y⟩ := rfl

/-- Counterexample to C2 as stated: in the composed Schema `cxM`, the two
wires' segments cross at `(1, 0)` and no Junction element exists anywhere,
yet the wires belong to one net node (they meet at coincident endpoints),
so crossing wires can share a node without a junction at the crossing. -/
theorem junction_counterexample :
    runDirectives [] (emptySchema "w") cxDs = (cxM, none) ∧
    onSegB ⟨1, 0⟩ ⟨0, 0⟩ ⟨1, 0⟩ = true ∧
    onSegB ⟨1, 0⟩ ⟨1, 0⟩ ⟨1, 1⟩ = true ∧
    cxM.elements.all (fun el => !(isJunction el)) = true ∧
    nodeRel cxM.elements ⟨0, 0⟩ ⟨1, 1⟩ := by
  refine ⟨?_, ?_, ?_, rfl, ?_⟩
  · norm_num [runDirectives, appendStep, resolveDirective, resolveWire, cxDs, cxM,
      newWire, WireD.right, WireD.up, WireD.length, emptySchema, gridUnit, dirVec,
      Point.scale, Point.add_def]
  · norm_num [onSegB, min_def, max_def]
  · norm_num [onSegB, min_def, max_def]
  · have hm1 : (⟨1, 0⟩ : Point) ∈ connPoints cxM.elements := by
      simp [cxM, connPoints, elementPoints]
    have hm2 : (⟨1, 1⟩ : Point) ∈ connPoints cxM.elements := by
      simp [cxM, connPoints, elementPoints]
    have hl1 : linkB cxM.elements ⟨0, 0⟩ ⟨1, 0⟩ = true := by
      norm_num [linkB, cxM, wireEndNear, closeB, eps]
    have hl2 : linkB cxM.elements ⟨1, 0⟩ ⟨1, 1⟩ = true := by
      norm_num [linkB, cxM, wireEndNear, closeB, eps]
    exact Relation.ReflTransGen.head ⟨hm1, hl1⟩
      (Relation.ReflTransGen.single ⟨hm2, hl2⟩)

/-- Witness for C2 (amended) at the concrete crossing `cS2` with junction
point `(0, 0)`. -/
theorem junction_semantics_witness :
    (¬ nodeRel cS2.elements ⟨-1, 0⟩ ⟨0, -1⟩) ∧
    (¬ nodeRel cS2.elements ⟨-1, 0⟩ ⟨0, 1⟩) ∧
    (appendStep [] (moveTo cS2 ⟨0, 0⟩) (.junctionDir newJunction) =
      ({ cS2 with
          elements := cS2.elements ++ [.junction ⟨0, 0⟩],
          cursor := ⟨⟨0, 0⟩, cS2.cursor.dir⟩ }, none)) ∧
    nodeRel (cS2.elements ++ [.junction ⟨0, 0⟩]) ⟨-1, 0⟩ ⟨0, -1⟩ ∧
    nodeRel (cS2.elements ++ [.junction ⟨0, 0⟩]) ⟨-1, 0⟩ ⟨0, 1⟩ :=
  junction_semantics [] cS2 ⟨-1, 0⟩ ⟨1, 0⟩ ⟨0, -1⟩ ⟨0, 1⟩ ⟨0, 0⟩ rfl
    (by norm_num [onSegB, min_def, max_def]) (by norm_num [onSegB, min_def, max_def])
    (by norm_num [closeB, eps]) (by norm_num [closeB, eps])
    (by norm_num [closeB, eps]) (by norm_num [closeB, eps])

lemma quantizeQ_close (c : ℚ) : |quantizeQ c - c| ≤ eps := by
  unfold quantizeQ prec eps
  have h := abs_sub_round (c * 10000)
  rw [show (round (c * 10000) : ℚ) / 10000 - c =
    ((round (c * 10000) : ℚ) - c * 10000) / 10000 by ring]
  rw [abs_div, abs_of_nonneg (by norm_num : (0:ℚ) ≤ 10000), abs_sub_comm]
  calc |c * 10000 - (round (c * 10000) : ℚ)| / 10000 ≤ (1 / 2) / 10000 := by
        apply (div_le_div_iff_of_pos_right (by norm_num)).mpr h
    _ ≤ 1 / 10000 := by norm_num

lemma closeB_quantizeP (p : Point) : closeB (quantizeP p) p = true := by
  simp [closeB, quantizeP]
  exact ⟨quantizeQ_close p.x, quantizeQ_close p.y⟩

lemma pinsCloseB_quantize (ps : List (String × Point)) :
    pinsCloseB (quantizePins ps) ps = true := by
  induction ps with
  | nil => rfl
  | cons a t ih =>
    obtain ⟨i, p⟩ := a
    simp [quantizePins, pinsCloseB, closeB_quantizeP]
    simpa [quantizePins] using ih

lemma elemCloseB_quantize (e : Element) : elemCloseB (quantizeElem e) e = true := by
  cases e <;> simp [quantizeElem, elemCloseB, closeB_quantizeP, pinsCloseB_quantize]

lemma forall2_quantize (els : List Element) :
    List.Forall₂ (fun e2 e1 => elemCloseB e2 e1 = true) (els.map quantizeElem) els := by
  induction els with
  | nil => exact .nil
  | cons e t ih => exact .cons (elemCloseB_quantize e) ih

lemma symbolRefs_quantize (els : List Element) :
    symbolRefs (els.map quantizeElem) = symbolRefs els := by
  induction els with
  | nil => rfl
  | cons e t ih =>
    cases e <;> simp [symbolRefs, quantizeElem, List.filterMap_cons] <;>
      simpa [symbolRefs] using ih

lemma parseBody_roundtrip (els : List Element) (ex : List String) :
    parseBody (els.map elemToNode ++ ex.map FileNode.unknown) =
      .ok (els.map quantizeElem, ex) := by
  induction els with
  | nil =>
    induction ex with
    | nil => rfl
    | cons h t ih =>
      simp only [List.map_nil, List.nil_append] at ih
      simp [parseBody, ih]
  | cons e t ih => cases e <;> simp [parseBody, elemToNode, quantizeElem, ih]

lemma load_write (s : Schema) :
    load (write s) =
      .ok ⟨s.title, s.elements.map quantizeElem, ⟨⟨0, 0⟩, .right⟩, s.extras⟩ := by
  simp [load, write, parseBody_roundtrip]

lemma quantizeQ_grid {c : ℚ} (h : gridB c = true) : quantizeQ c = c := by
  simpa [gridB] using h

lemma quantizeP_grid {p : Point} (h : pointGridB p = true) : quantizeP p = p := by
  obtain ⟨hx, hy⟩ : gridB p.x = true ∧ gridB p.y = true := by
    simpa [pointGridB] using h
  cases p with
  | mk px py => simp [quantizeP, quantizeQ_grid hx, quantizeQ_grid hy]

lemma quantizePins_grid {ps : List (String × Point)}
    (h : ps.all (fun pr => pointGridB pr.2) = true) : quantizePins ps = ps := by
  induction ps with
  | nil => rfl
  | cons a t ih =>
    rw [List.all_cons, Bool.and_eq_true] at h
    simp [quantizePins, quantizeP_grid h.1]
    simpa [quantizePins] using ih h.2

lemma quantizeElem_grid {e : Element} (h : elemGridB e = true) : quantizeElem e = e := by
  cases e with
  | wire a b =>
    simp [elemGridB] at h
    simp [quantizeElem, quantizeP_grid h.1, quantizeP_grid h.2]
  | junction p =>
    simp [elemGridB] at h
    simp [quantizeElem, quantizeP_grid h]
  | symbol r v l o tr pins =>
    simp [elemGridB] at h
    simp [quantizeElem, quantizeP_grid h.1, quantizePins_grid (by simpa using h.2)]
  | localLabel t p rot =>
    simp [elemGridB] at h
    simp [quantizeElem, quantizeP_grid h]

lemma map_quantizeElem_grid {els : List Element}
    (h : els.all elemGridB = true) : els.map quantizeElem = els := by
  induction els with
  | nil => rfl
  | cons e t ih =>
    rw [List.all_cons, Bool.and_eq_true] at h
    simp [quantizeElem_grid h.1, ih h.2]

/-- C1 (amended): writing a composed Schema and loading it back succeeds and
yields a Schema with the same element count, the same symbol refs, and every
element equal to its original within the coordinate epsilon; when all stored
coordinates lie on the format's canonical precision grid the elements are
reproduced exactly, so pin positions and pin connectivity are identical
(quantization can otherwise merge pins sitting marginally farther apart than
the epsilon). -/
theorem roundtrip_composed (lib : Library) (t : String) (ds : List Directive)
    (s : Schema) (_hc : Composed lib t ds s) :
    ∃ s2, load (write s) = .ok s2 ∧
      s2.elements.length = s.elements.length ∧
      symbolRefs s2.elements = symbolRefs s.elements ∧
      List.Forall₂ (fun e2 e1 => elemCloseB e2 e1 = true) s2.elements s.elements ∧
      (onGridB s = true →
        s2.elements = s.elements ∧
        (∀ r i, pinPosition s2 r i = pinPosition s r i) ∧
        (∀ r1 i1 r2 i2, pinsConnected s2 r1 i1 r2 i2 ↔ pinsConnected s r1 i1 r2 i2)) := by
  refine ⟨_, load_write s, by simp, symbolRefs_quantize _, forall2_quantize _, ?_⟩
  intro hg
  have he : s.elements.map quantizeElem = s.elements :=
    map_quantizeElem_grid (by simpa [onGridB] using hg)
  refine ⟨he, ?_, ?_⟩
  · intro r i
    simp [pinPosition, Schema.refIndex, he]
  · intro r1 i1 r2 i2
    simp [pinsConnected, pinPosition, Schema.refIndex, he]

/-- Witness for C1 (amended) at a one-label composed Schema. -/
theorem roundtrip_composed_witness :
    ∃ s2, load (write ⟨"", [.localLabel "Vin" ⟨0, 0⟩ 0], ⟨⟨0, 0⟩, .right⟩, []⟩) = .ok s2 ∧
      s2.elements.length =
        (⟨"", [.localLabel "Vin" ⟨0, 0⟩ 0], ⟨⟨0, 0⟩, .right⟩, []⟩ : Schema).elements.length ∧
      symbolRefs s2.elements =
        symbolRefs (⟨"", [.localLabel "Vin" ⟨0, 0⟩ 0], ⟨⟨0, 0⟩, .right⟩, []⟩ : Schema).elements ∧
      List.Forall₂ (fun e2 e1 => elemCloseB e2 e1 = true) s2.elements
        (⟨"", [.localLabel "Vin" ⟨0, 0⟩ 0], ⟨⟨0, 0⟩, .right⟩, []⟩ : Schema).elements ∧
      (onGridB ⟨"", [.localLabel "Vin" ⟨0, 0⟩ 0], ⟨⟨0, 0⟩, .right⟩, []⟩ = true →
        s2.elements =
          (⟨"", [.localLabel "Vin" ⟨0, 0⟩ 0], ⟨⟨0, 0⟩, .right⟩, []⟩ : Schema).elements ∧
        (∀ r i, pinPosition s2 r i =
          pinPosition ⟨"", [.localLabel "Vin" ⟨0, 0⟩ 0], ⟨⟨0, 0⟩, .right⟩, []⟩ r i) ∧
        (∀ r1 i1 r2 i2, pinsConnected s2 r1 i1 r2 i2 ↔
          pinsConnected ⟨"", [.localLabel "Vin" ⟨0, 0⟩ 0], ⟨⟨0, 0⟩, .right⟩, []⟩ r1 i1 r2 i2)) :=
  roundtrip_composed [] "" [.labelDir (newLabel "Vin")]
    ⟨"", [.localLabel "Vin" ⟨0, 0⟩ 0], ⟨⟨0, 0⟩, .right⟩, []⟩ rfl

/-- Counterexample to C1 as stated: the Schema `rtM`, built purely through
the composition operator from `rtDs`, has its two pins 0.00015 apart — not
connected; after `write` and `load` the quantized pins are exactly the
epsilon apart and land in one net node, so the round trip does not preserve
pin connectivity exactly. -/
theorem roundtrip_counterexample :
    runDirectives rtLib (emptySchema "t") rtDs = (rtM, none) ∧
    load (write rtM) = .ok rtM2 ∧
    (¬ pinsConnected rtM "U1" "1" "U2" "1") ∧
    pinsConnected rtM2 "U1" "1" "U2" "1" := by
  refine ⟨?_, ?_, ?_, ?_⟩
  · norm_num [runDirectives, appendStep, resolveDirective, resolveSymbol, resolveTarget,
      rtDs, rtLib, rtM, newSymbol, emptySchema, checkMirror, normalizeAngle,
      mkResolvedPins, Transform.apply, rotPt, mirrorPt, Point.add_def,
      Schema.refIndex, Element.refPins, List.lookup]
    rfl
  · norm_num [load, write, parseBody, elemToNode, quantizeP, quantizeQ, quantizePins,
      prec, formatVersion, rtM, rtM2, round_eq]
  · rintro ⟨q1, q2, h1, h2, hnode⟩
    have hq1 : q1 = ⟨3/50000, 0⟩ := by
      have : pinPosition rtM "U1" "1" = .ok ⟨3/50000, 0⟩ := by rfl
      rw [this] at h1
      cases h1
      rfl
    have hq2 : q2 = ⟨21/100000, 0⟩ := by
      have : pinPosition rtM "U2" "1" = .ok ⟨21/100000, 0⟩ := by rfl
      rw [this] at h2
      cases h2
      rfl
    subst hq1
    subst hq2
    have reach : ∀ v, nodeRel rtM.elements ⟨3/50000, 0⟩ v → v = ⟨3/50000, 0⟩ := by
      intro v h
      induction h with
      | refl => rfl
      | tail hprev hstep ih =>
        obtain ⟨hmem, hlink⟩ := hstep
        rw [ih] at hlink
        simp [rtM, connPoints, elementPoints] at hmem
        rcases hmem with rfl | rfl
        · rfl
        · exfalso
          norm_num [linkB, rtM, closeB, eps, wireEndNear, abs_le] at hlink
    have := reach _ hnode
    simp [Point.mk.injEq] at this
    norm_num at this
  · refine ⟨⟨1/10000, 0⟩, ⟨1/5000, 0⟩, by rfl, by rfl, ?_⟩
    have hm : (⟨1/5000, 0⟩ : Point) ∈ connPoints rtM2.elements := by
      simp [rtM2, connPoints, elementPoints]
    have hl : linkB rtM2.elements ⟨1/10000, 0⟩ ⟨1/5000, 0⟩ = true := by
      norm_num [linkB, rtM2, closeB, eps, wireEndNear, abs_le]
    exact Relation.ReflTransGen.single ⟨hm, hl⟩
